import Mathlib

/-!
Shallow embedding of the dual-number core `RealDuals.py` (class `RealDual`).

Python floats are modelled by `ℝ`; the float operator `**` is modelled by
`Real.rpow` and `math.log` by `Real.log`.  Python's dynamic operand coercion
(`RealDual.check`) is modelled by the `Operand` type, and Python exceptions by
`Except Err`.
-/

namespace RealDuals

/-- A real dual number `a + bε`: the two fields stored by `RealDual.__init__`
and exposed by the `real` / `dual` properties. -/
structure RealDual where
  real : ℝ
  dual : ℝ

/-- The failure outcomes of the algebra:
`invalidOperand` is `ValueError("Not a dual number")` from `check`,
`divisionByZero` is the zero-real-component failure of `reciprocate`
(and the guard inside `__pow__` at line 75),
`undefinedOperation` is `ValueError(f"... cannot be performed")` from `__pow__`. -/
inductive Err where
  | invalidOperand
  | divisionByZero
  | undefinedOperation
deriving DecidableEq

/-- A Python value handed to a binary operation of `RealDual`: a dual number,
an `int`, a `float`, or any other value (e.g. a string), which `check`
rejects. -/
inductive Operand where
  | dual (x : RealDual)
  | int (n : ℤ)
  | float (r : ℝ)
  | other (s : String)

/-- Model of `RealDual.check`: a `RealDual` passes through; `int`/`float` scalars lift
to `RealDual(float(v), 0)`; anything else raises
`ValueError("Not a dual number")`. -/
def check : Operand → Except Err RealDual
  | .dual x => .ok x
  | .int n => .ok ⟨(n : ℝ), 0⟩
  | .float r => .ok ⟨r, 0⟩
  | .other _ => .error .invalidOperand

/-- Model of `RealDual.__neg__`. -/
def neg (x : RealDual) : RealDual := ⟨-x.real, -x.dual⟩

/-- Model of `RealDual.__pos__`. -/
def pos (x : RealDual) : RealDual := ⟨x.real, x.dual⟩

/-- Model of `RealDual.conjugate`: flips the sign of the dual component only. -/
def conjugate (x : RealDual) : RealDual := ⟨x.real, -x.dual⟩

/-- Model of `RealDual.__add__` (also `__radd__`): coerce the operand, add
componentwise. -/
def add (x : RealDual) (other : Operand) : Except Err RealDual := do
  let o ← check other
  return ⟨x.real + o.real, x.dual + o.dual⟩

/-- Model of `RealDual.__mul__` (also `__rmul__`): coerce the operand, then
`(a+bε)(c+dε) = ac + (cb + ad)ε`. -/
def mul (x : RealDual) (other : Operand) : Except Err RealDual := do
  let o ← check other
  return ⟨x.real * o.real, o.real * x.dual + x.real * o.dual⟩

/-- Model of `RealDual.reciprocate`: raises `ZeroDivisionError` when `real == 0`,
otherwise returns `self.conjugate() * (1 / self.real ** 2)` (the scalar goes
through `__mul__`, hence through `check`). -/
noncomputable def reciprocate (x : RealDual) : Except Err RealDual :=
  if x.real = 0 then .error .divisionByZero
  else mul (conjugate x) (.float (1 / x.real ^ (2 : ℕ)))

/-- Model of `RealDual.__truediv__`: coerce the denominator, then
`self * denominator.reciprocate()`. -/
noncomputable def truediv (x : RealDual) (denominator : Operand) : Except Err RealDual := do
  let d ← check denominator
  let r ← reciprocate d
  mul x (.dual r)

/-- Model of `RealDual.__rtruediv__`: coerce the numerator, then `numerator / self`. -/
noncomputable def rtruediv (x : RealDual) (numerator : Operand) : Except Err RealDual := do
  let n ← check numerator
  truediv n (.dual x)

/-- Python's `float.is_integer()`: the value is an integer. -/
def IsIntegerVal (r : ℝ) : Prop := ∃ n : ℤ, r = (n : ℝ)

open Classical in
/-- Model of `RealDual.__pow__`: coerce the exponent, then case on `self.real`:
positive base uses the smooth formula with `math.log`; negative base requires
a pure real integer exponent (with an unreachable zero-base reciprocal guard);
everything else falls through to `ValueError(f"... cannot be performed")`. -/
noncomputable def pow (x : RealDual) (power : Operand) : Except Err RealDual := do
  let p ← check power
  if x.real > 0 then
    return ⟨x.real ^ p.real,
      x.real ^ (p.real - 1) * p.real * x.dual + x.real ^ p.real * p.dual * Real.log x.real⟩
  else if x.real < 0 then
    if p.dual = 0 ∧ IsIntegerVal p.real then
      if p.real < 0 ∧ x.real = 0 then
        .error .divisionByZero
      else
        return ⟨x.real ^ p.real, x.real ^ (p.real - 1) * p.real * x.dual⟩
    else
      .error .undefinedOperation
  else
    .error .undefinedOperation

open Classical in
/-- Model of `RealDual.__eq__`: coerce the operand (so a non-coercible operand raises),
then compare both components exactly. -/
noncomputable def eq (x : RealDual) (other : Operand) : Except Err Bool := do
  let o ← check other
  return decide (x.real = o.real ∧ x.dual = o.dual)

/-- Model of `RealDual.__str__`, parametrised by the textual rendering `fmt` that
Python's f-string applies to a numeric component: a dual component equal to
`1` renders as `"{real} + ε"`, otherwise `"{real} + {dual}ε"`. -/
noncomputable def strD (x : RealDual) (fmt : ℝ → String) : String :=
  if x.dual = 1 then fmt x.real ++ " + ε"
  else fmt x.real ++ " + " ++ fmt x.dual ++ "ε"

/-- The polynomial `f(u) = u**2 + 4*u + 3` composed from the public operators
exactly as Python evaluates it: `u.__pow__(2)`, `u.__rmul__(4)` (which is
`__mul__`), `__add__` on the dual intermediate, then `__add__(3)`. -/
noncomputable def fpoly (u : RealDual) : Except Err RealDual := do
  let sq ← pow u (.int 2)
  let lin ← mul u (.int 4)
  let s ← add sq (.dual lin)
  add s (.int 3)

/-- A Python float value including the non-finite ones, used to state that the
constructor performs no validation: a finite real, NaN, or a signed
infinity. -/
inductive FloatVal where
  | finite (r : ℝ)
  | nan
  | inf
  | neginf

/-- Model of `RealDual.__init__` at the raw float level: the two arguments are stored
verbatim, with no validation and no failure path. -/
structure RealDualRaw where
  real : FloatVal
  dual : FloatVal

open Classical in
/-- A concrete component renderer agreeing with Python's f-string on the
values `3` and `2`, used to instantiate the rendering contract. -/
noncomputable def fmtEx (r : ℝ) : String :=
  if r = 3 then "3" else if r = 2 then "2" else ""

/-! ### Helper lemmas for reducing the monadic embedding -/

theorem pure_ok {α : Type} (a : α) : (pure a : Except Err α) = .ok a := rfl

theorem ok_bind {α β : Type} (a : α) (f : α → Except Err β) :
    (Except.ok a : Except Err α) >>= f = f a := rfl

theorem error_bind {α β : Type} (e : Err) (f : α → Except Err β) :
    (Except.error e : Except Err α) >>= f = .error e := rfl

/-- Evaluation of `__pow__` in its positive-base branch. -/
theorem pow_pos_eval (x p : RealDual) (h : 0 < x.real) :
    pow x (.dual p) = .ok ⟨x.real ^ p.real,
      x.real ^ (p.real - 1) * p.real * x.dual + x.real ^ p.real * p.dual * Real.log x.real⟩ := by
  unfold pow
  simp only [check, ok_bind]
  rw [if_pos h]
  rfl

/-- Evaluation of `__pow__` in its negative-base, integer-exponent branch. -/
theorem pow_neg_int_eval (x p : RealDual) (hx : x.real < 0) (hd : p.dual = 0)
    (hi : IsIntegerVal p.real) :
    pow x (.dual p) = .ok ⟨x.real ^ p.real, x.real ^ (p.real - 1) * p.real * x.dual⟩ := by
  unfold pow
  simp only [check, ok_bind]
  rw [if_neg (not_lt.mpr hx.le), if_pos hx, if_pos ⟨hd, hi⟩,
    if_neg (fun hc => absurd hc.2 (ne_of_lt hx))]
  rfl

/-! ### The claims -/

/-- C5: multiplication of two dual numbers returns
`(a·c) + (a·d + b·c)ε` with no failure mode, and in particular
`(0+1ε)·(0+1ε) = (0+0ε)`: the `bd·ε²` term vanishes. -/
theorem mul_dual_spec :
    (∀ x y : RealDual,
        mul x (.dual y) = .ok ⟨x.real * y.real, x.real * y.dual + x.dual * y.real⟩) ∧
    mul ⟨0, 1⟩ (.dual ⟨0, 1⟩) = .ok ⟨0, 0⟩ := by
  have main : ∀ x y : RealDual,
      mul x (.dual y) = .ok ⟨x.real * y.real, x.real * y.dual + x.dual * y.real⟩ := by
    intro x y
    unfold mul
    simp only [check, ok_bind, pure_ok, Except.ok.injEq, RealDual.mk.injEq]
    exact ⟨trivial, by ring⟩
  refine ⟨main, ?_⟩
  rw [main ⟨0, 1⟩ ⟨0, 1⟩]
  norm_num

/-- C9: equality against an operand that is neither a dual number nor a
numeric scalar does not return `false`: the coercion inside `__eq__` raises
`ValueError("Not a dual number")`. -/
theorem eq_noncoercible_raises :
    ∀ (x : RealDual) (s : String), eq x (.other s) = .error .invalidOperand := by
  intro x s
  rfl

/-- C10: the constructor stores its two arguments verbatim with no validation
and no failure path — also at the raw float level, where NaN and Infinity
pass through unchecked. -/
theorem init_no_validation_spec :
    (∀ a b : ℝ, (RealDual.mk a b).real = a ∧ (RealDual.mk a b).dual = b) ∧
    (∀ a b : FloatVal, (RealDualRaw.mk a b).real = a ∧ (RealDualRaw.mk a b).dual = b) ∧
    (RealDualRaw.mk .nan .inf).real = .nan ∧ (RealDualRaw.mk .nan .inf).dual = .inf :=
  ⟨fun _ _ => ⟨rfl, rfl⟩, fun _ _ => ⟨rfl, rfl⟩, rfl, rfl⟩

/-- C3: reciprocation of a dual number with zero real component fails with
`DivisionByZero`, and so does every division with that denominator, through
`__truediv__` and through the reversed `__rtruediv__` after coercing the
numerator scalar. -/
theorem div_zero_real_spec :
    ∀ y : RealDual, y.real = 0 →
      reciprocate y = .error .divisionByZero ∧
      (∀ x : RealDual, truediv x (.dual y) = .error .divisionByZero) ∧
      (∀ n : ℤ, rtruediv y (.int n) = .error .divisionByZero) ∧
      (∀ c : ℝ, rtruediv y (.float c) = .error .divisionByZero) := by
  intro y hy
  have hrec : reciprocate y = .error .divisionByZero := by
    unfold reciprocate
    rw [if_pos hy]
  have hdiv : ∀ x : RealDual, truediv x (.dual y) = .error .divisionByZero := by
    intro x
    unfold truediv
    simp only [check, ok_bind, hrec, error_bind]
  refine ⟨hrec, hdiv, ?_, ?_⟩
  · intro n
    unfold rtruediv
    simp only [check, ok_bind]
    exact hdiv _
  · intro c
    unfold rtruediv
    simp only [check, ok_bind]
    exact hdiv _

/-- Witness for C3 at `DualNumber(0, 5)`, with `1 / DualNumber(0, 5)` as the
reversed division. -/
theorem div_zero_real_spec_witness :
    reciprocate ⟨0, 5⟩ = .error .divisionByZero ∧
    rtruediv ⟨0, 5⟩ (.int 1) = .error .divisionByZero := by
  obtain ⟨h1, _, h3, _⟩ := div_zero_real_spec ⟨0, 5⟩ rfl
  exact ⟨h1, h3 1⟩

/-- C7: for `x = a + bε` with `a ≠ 0`, reciprocation returns
`(a - bε)/a²`, and `x * x.reciprocate() = 1 + 0ε` exactly, over exact real
arithmetic. -/
theorem reciprocate_inverse_spec :
    ∀ x : RealDual, x.real ≠ 0 →
      reciprocate x = .ok ⟨x.real / x.real ^ 2, -x.dual / x.real ^ 2⟩ ∧
      mul x (.dual ⟨x.real / x.real ^ 2, -x.dual / x.real ^ 2⟩) = .ok ⟨1, 0⟩ := by
  intro x hx
  constructor
  · unfold reciprocate
    rw [if_neg hx]
    unfold mul conjugate
    simp only [check, ok_bind, pure_ok, Except.ok.injEq, RealDual.mk.injEq]
    exact ⟨by ring, by ring⟩
  · unfold mul
    simp only [check, ok_bind, pure_ok, Except.ok.injEq, RealDual.mk.injEq]
    refine ⟨?_, by ring⟩
    field_simp
    ring

/-- Witness for C7 at `x = DualNumber(2, 3)`. -/
theorem reciprocate_inverse_spec_witness :
    reciprocate ⟨2, 3⟩ = .ok ⟨(2 : ℝ) / 2 ^ 2, -(3 : ℝ) / 2 ^ 2⟩ ∧
    mul ⟨2, 3⟩ (.dual ⟨(2 : ℝ) / 2 ^ 2, -(3 : ℝ) / 2 ^ 2⟩) = .ok ⟨1, 0⟩ :=
  reciprocate_inverse_spec ⟨2, 3⟩ (by norm_num)

/-- C8: the string rendering is `"{real} + {dual}ε"`, except that a dual
component equal to `1` renders as `"{real} + ε"`; in particular
`DualNumber(3, 1)` renders as `"3 + ε"` and `DualNumber(3, 2)` as
`"3 + 2ε"` whenever the component renderer prints `3` as `"3"` and `2` as
`"2"`. -/
theorem str_rendering_spec :
    (∀ (x : RealDual) (fmt : ℝ → String),
        strD x fmt = if x.dual = 1 then fmt x.real ++ " + ε"
          else fmt x.real ++ " + " ++ fmt x.dual ++ "ε") ∧
    (∀ fmt : ℝ → String, fmt 3 = "3" → fmt 2 = "2" →
        strD ⟨3, 1⟩ fmt = "3 + ε" ∧ strD ⟨3, 2⟩ fmt = "3 + 2ε") := by
  constructor
  · intro x fmt
    rfl
  · intro fmt h3 h2
    constructor
    · show (if (1 : ℝ) = 1 then fmt 3 ++ " + ε" else fmt 3 ++ " + " ++ fmt 1 ++ "ε") = "3 + ε"
      rw [if_pos rfl, h3]
      rfl
    · show (if (2 : ℝ) = 1 then fmt 3 ++ " + ε" else fmt 3 ++ " + " ++ fmt 2 ++ "ε") = "3 + 2ε"
      rw [if_neg (by norm_num), h3, h2]
      rfl

/-- Witness for C8 with the concrete renderer `fmtEx`. -/
theorem str_rendering_spec_witness :
    strD ⟨3, 1⟩ fmtEx = "3 + ε" ∧ strD ⟨3, 2⟩ fmtEx = "3 + 2ε" :=
  str_rendering_spec.2 fmtEx
    (by unfold fmtEx; rw [if_pos rfl])
    (by unfold fmtEx; rw [if_neg (by norm_num), if_pos rfl])

/-- C4: with a positive-real-part base, exponentiation always succeeds and
returns the general smooth formula
`(x.real^p.real, p.real·x.real^(p.real-1)·x.dual + x.real^p.real·ln(x.real)·p.dual)`. -/
theorem pow_pos_spec (x p : RealDual) (h : 0 < x.real) :
    pow x (.dual p) = .ok ⟨x.real ^ p.real,
      p.real * x.real ^ (p.real - 1) * x.dual + x.real ^ p.real * Real.log x.real * p.dual⟩ := by
  rw [pow_pos_eval x p h]
  simp only [Except.ok.injEq, RealDual.mk.injEq]
  exact ⟨trivial, by ring⟩

/-- Witness for C4: `DualNumber(2, 1) ** DualNumber(3, 0) = DualNumber(8, 12)`. -/
theorem pow_pos_spec_witness : pow ⟨2, 1⟩ (.dual ⟨3, 0⟩) = .ok ⟨8, 12⟩ := by
  have h := pow_pos_spec ⟨2, 1⟩ ⟨3, 0⟩ (by show (0 : ℝ) < 2; norm_num)
  rw [h]
  have h8 : (2 : ℝ) ^ (3 : ℝ) = 8 := by norm_num
  have h4 : (2 : ℝ) ^ (2 : ℝ) = 4 := by norm_num
  show Except.ok
      (⟨(2 : ℝ) ^ (3 : ℝ),
        (3 : ℝ) * (2 : ℝ) ^ ((3 : ℝ) - 1) * 1 + (2 : ℝ) ^ (3 : ℝ) * Real.log 2 * 0⟩ :
        RealDual) = _
  rw [show ((3 : ℝ) - 1) = 2 by norm_num, h8, h4]
  norm_num

/-- C6: with a negative-real-part base and a pure real integer exponent,
exponentiation succeeds and returns
`(x.real^p.real, p.real·x.real^(p.real-1)·x.dual)`. -/
theorem pow_neg_int_spec (x p : RealDual) (hx : x.real < 0) (hd : p.dual = 0)
    (hi : IsIntegerVal p.real) :
    pow x (.dual p) = .ok ⟨x.real ^ p.real, p.real * x.real ^ (p.real - 1) * x.dual⟩ := by
  rw [pow_neg_int_eval x p hx hd hi]
  simp only [Except.ok.injEq, RealDual.mk.injEq]
  exact ⟨trivial, by ring⟩

/-- Witness for C6: `DualNumber(-2, 1) ** DualNumber(2, 0) = DualNumber(4, -4)`. -/
theorem pow_neg_int_spec_witness : pow ⟨-2, 1⟩ (.dual ⟨2, 0⟩) = .ok ⟨4, -4⟩ := by
  have h := pow_neg_int_spec ⟨-2, 1⟩ ⟨2, 0⟩ (by show (-2 : ℝ) < 0; norm_num) rfl
    ⟨2, by show (2 : ℝ) = ((2 : ℤ) : ℝ); norm_num⟩
  rw [h]
  have h4 : (-2 : ℝ) ^ (2 : ℝ) = 4 := by norm_num
  show Except.ok
      (⟨(-2 : ℝ) ^ (2 : ℝ), (2 : ℝ) * (-2 : ℝ) ^ ((2 : ℝ) - 1) * 1⟩ : RealDual) = _
  rw [show ((2 : ℝ) - 1) = 1 by norm_num, h4, Real.rpow_one]
  norm_num

/-- C2: evaluating `f(u) = u**2 + 4*u + 3`, composed only from the public
operators, at the dual input `DualNumber(2, 1)` returns `DualNumber(15, 8)`:
the value `f(2) = 15` and the derivative `f'(2) = 8` at once. -/
theorem chain_rule_poly_spec : fpoly ⟨2, 1⟩ = .ok ⟨15, 8⟩ := by
  have hsq : pow ⟨2, 1⟩ (.int 2) = .ok ⟨4, 4⟩ := by
    unfold pow
    simp only [check, ok_bind]
    rw [if_pos (show RealDual.real ⟨2, 1⟩ > 0 by norm_num)]
    simp only [pure_ok, Except.ok.injEq, RealDual.mk.injEq]
    norm_num
  have hlin : mul ⟨2, 1⟩ (.int 4) = .ok ⟨8, 4⟩ := by
    unfold mul
    simp only [check, ok_bind, pure_ok, Except.ok.injEq, RealDual.mk.injEq]
    norm_num
  have hsum : add ⟨4, 4⟩ (.dual ⟨8, 4⟩) = .ok ⟨12, 8⟩ := by
    unfold add
    simp only [check, ok_bind, pure_ok, Except.ok.injEq, RealDual.mk.injEq]
    norm_num
  have hfin : add ⟨12, 8⟩ (.int 3) = .ok ⟨15, 8⟩ := by
    unfold add
    simp only [check, ok_bind, pure_ok, Except.ok.injEq, RealDual.mk.injEq]
    norm_num
  unfold fpoly
  simp only [hsq, ok_bind, hlin, hsum, hfin]

/-- C1: exponentiation fails with `UndefinedOperation` exactly when the base
has zero real part, or negative real part with an exponent that is dual-valued
or not an integer; in particular
`DualNumber(-2, 1) ** DualNumber(0.5, 0)` fails that way. -/
theorem pow_undefined_iff_spec :
    (∀ x p : RealDual,
        pow x (.dual p) = .error .undefinedOperation ↔
          x.real = 0 ∨ (x.real < 0 ∧ (p.dual ≠ 0 ∨ ¬ IsIntegerVal p.real))) ∧
    pow ⟨-2, 1⟩ (.dual ⟨0.5, 0⟩) = .error .undefinedOperation := by
  have main : ∀ x p : RealDual,
      pow x (.dual p) = .error .undefinedOperation ↔
        x.real = 0 ∨ (x.real < 0 ∧ (p.dual ≠ 0 ∨ ¬ IsIntegerVal p.real)) := by
    intro x p
    unfold pow
    simp only [check, ok_bind]
    rcases lt_trichotomy x.real 0 with hneg | hzero | hpos
    · rw [if_neg (not_lt.mpr hneg.le), if_pos hneg]
      by_cases hc : p.dual = 0 ∧ IsIntegerVal p.real
      · rw [if_pos hc, if_neg (fun hcc => absurd hcc.2 (ne_of_lt hneg))]
        simp [pure_ok, ne_of_lt hneg, hc.1, hc.2]
      · rw [if_neg hc]
        simp only [ne_of_lt hneg, hneg, true_and, false_or, iff_true]
        tauto
    · rw [if_neg (by rw [hzero]; exact lt_irrefl 0), if_neg (by rw [hzero]; exact lt_irrefl 0)]
      simp [hzero]
    · rw [if_pos hpos]
      simp [pure_ok, hpos.ne', not_lt.mpr hpos.le]
  refine ⟨main, (main ⟨-2, 1⟩ ⟨0.5, 0⟩).mpr (Or.inr ⟨by norm_num, Or.inr ?_⟩)⟩
  rintro ⟨n, hn⟩
  have h1 : ((0.5 : ℝ)) = (n : ℝ) := hn
  have h2 : ((2 * n : ℤ) : ℝ) = 1 := by push_cast [← h1]; norm_num
  have h3 : (2 * n : ℤ) = 1 := by exact_mod_cast h2
  omega

end RealDuals
